import Mathlib

/-!
Verification of the `todoapp` task tracker (a Django application consisting of
`src/todoapp/models.py`, `src/todoapp/views.py` and `src/todoapp/tests.py`).

The data model and the view handlers are shallowly embedded below.  Users are
identified by their numeric primary key.  The persistent store is the ordered
list of `Task` rows (in creation order, as produced by the auto-incrementing
primary key) together with the next free id and a creation clock.  Each view
class of `views.py` becomes a function from the session identity (an
`Option Nat`: `none` is an unauthenticated request), the request data and the
store to a response and, for mutating views, an updated store.

The generic behaviour that the views inherit from the host framework
(`LoginRequiredMixin`, `ListView`, `DetailView`, `CreateView`, `UpdateView`,
`DeleteView`, `ModelForm` field validation) is not part of the repository's
sources; it is modelled from the specification (sections 4.2, 4.3 and 6) and
from the repository's own tests, which pin down the redirect targets and the
`?next=` parameter.
-/

namespace Todoapp

/-- models.py lines 4-8: the declared `PRIORITY_CHOICES` enumeration. -/
def PRIORITY_CHOICES : List String := ["High", "Medium", "Low"]

/-- models.py lines 10-13: the declared `STATUS_CHOICES` enumeration. -/
def STATUS_CHOICES : List String := ["Pending", "Completed"]

/-- models.py lines 15-21: the `Task` model.  `user` is a nullable foreign key
(`null=True, blank=True`), `title` and `description` are nullable text fields,
`status` and `priority` are stored strings, `created` is the immutable
creation timestamp (modelled as a `Nat` tick of the store clock). -/
structure Task where
  id : Nat
  user : Option Nat
  title : Option String
  description : Option String
  status : String
  created : Nat
  priority : String
deriving DecidableEq, Repr

/-- The persistent store: the `Task` table in creation order, the next free
primary key, and the creation clock that stamps `created`. -/
structure Store where
  tasks : List Task
  nextId : Nat
  clock : Nat
deriving DecidableEq, Repr

/-- Outcome of a view invocation. -/
inductive ViewResult (α : Type) where
  | redirect (url : String)
  | notFound
  | invalidForm
  | ok (a : α)
deriving DecidableEq, Repr

/-- Modelled from the spec: the route table of section 6 (the repository's URL
configuration module is not among the source files; the paths are also pinned
by `tests.py`, e.g. `reverse('login') + '?next=/' + 'task-update/1/'`). -/
inductive Route where
  | list
  | detail (pk : Nat)
  | create
  | update (pk : Nat)
  | delete (pk : Nat)
deriving DecidableEq, Repr

/-- The path of each route, per the spec's route table. -/
def Route.path : Route → String
  | .list => "/"
  | .detail pk => "/task/" ++ toString pk ++ "/"
  | .create => "/task-create/"
  | .update pk => "/task-update/" ++ toString pk ++ "/"
  | .delete pk => "/task-delete/" ++ toString pk ++ "/"

/-- Modelled from the spec: `LoginRequiredMixin` (views.py lines 65-93 attach
it to every task view; its body lives in the host framework).  An
unauthenticated request to a protected route is answered with a redirect to
`/login/?next=<original path>` (spec section 6; asserted by `tests.py`). -/
def loginRedirect (r : Route) : String := "/login/?next=" ++ r.path

/-- views.py lines 82, 91, 95: `success_url = reverse_lazy('task')`, the task
list route. -/
def success_url : String := Route.path .list

/-- The data a client may submit to the create/update form.  `clientOwner` is
any owner value the client tries to smuggle in; it is not among the declared
form fields (views.py lines 81, 90: `fields = ["title", "description",
"status", "priority"]`), so no handler reads it. -/
structure TaskForm where
  title : Option String
  description : Option String
  status : Option String
  priority : Option String
  clientOwner : Option Nat
deriving DecidableEq, Repr

/-- Form validation of a required text field: `title` is `blank=False` at the
form layer, so it must be present and non-empty. -/
def requiredFilled : Option String → Bool
  | some v => decide (v ≠ "")
  | none => false

/-- Form validation of a required choice field: the submitted value must be a
member of the declared choices. -/
def inChoices (cs : List String) : Option String → Bool
  | some v => decide (v ∈ cs)
  | none => false

/-- Modelled from the spec: validation of the model form over the declared
fields `["title", "description", "status", "priority"]` (views.py lines 81,
90).  `title` is required, `description` is optional (`blank=True`), and
`status`/`priority` must be members of their declared choice enumerations. -/
def formValid (f : TaskForm) : Bool :=
  requiredFilled f.title
    && inChoices STATUS_CHOICES f.status
    && inChoices PRIORITY_CHOICES f.priority

/-- A fresh `Task` row: unsupplied `status` defaults to `'Incomplete'` and
unsupplied `priority` defaults to `'Medium'` (models.py lines 19, 21);
`created` is stamped once from the clock. -/
def newTask (id : Nat) (user : Option Nat) (title : Option String)
    (description : Option String) (status : Option String)
    (priority : Option String) (created : Nat) : Task :=
  ⟨id, user, title, description, status.getD "Incomplete", created,
    priority.getD "Medium"⟩

/-- `Task.objects.create`: appends a fresh row to the table (tests.py uses it
with the model-level field defaults). -/
def taskObjectsCreate (user : Option Nat) (title : Option String)
    (description : Option String) (status : Option String)
    (priority : Option String) (s : Store) : Task × Store :=
  let t := newTask s.nextId user title description status priority s.clock
  (t, ⟨s.tasks ++ [t], s.nextId + 1, s.clock + 1⟩)

/-- views.py lines 65-72: `TaskList` — login required; the context's `task`
entry is `Task.objects.all().filter(user=self.request.user)`, which keeps the
table's creation order. -/
def taskList (auth : Option Nat) (s : Store) : ViewResult (List Task) :=
  match auth with
  | none => .redirect (loginRedirect .list)
  | some u => .ok (s.tasks.filter (fun t => t.user == some u))

/-- views.py lines 74-77: `TaskDetail` — login required; the object is fetched
by primary key only, with no ownership filter. -/
def taskDetail (auth : Option Nat) (pk : Nat) (s : Store) : ViewResult Task :=
  match auth with
  | none => .redirect (loginRedirect (.detail pk))
  | some _ =>
    match s.tasks.find? (fun t => t.id == pk) with
    | none => .notFound
    | some t => .ok t

/-- views.py lines 79-86: `TaskCreate` — login required; on a valid form,
`form_valid` forces `form.instance.user = self.request.user` (line 85) and the
row is inserted, then the view redirects to `success_url`.  The client's
`clientOwner` is never consulted. -/
def taskCreate (auth : Option Nat) (f : TaskForm) (s : Store) :
    ViewResult Unit × Store :=
  match auth with
  | none => (.redirect (loginRedirect .create), s)
  | some u =>
    if formValid f then
      (.redirect success_url,
        (taskObjectsCreate (some u) f.title f.description f.status f.priority s).2)
    else (.invalidForm, s)

/-- The effect of a valid update form on an existing row: the four declared
fields are overwritten; `id`, `user` and `created` are untouched. -/
def applyForm (f : TaskForm) (t : Task) : Task :=
  ⟨t.id, t.user, f.title, f.description, f.status.getD t.status, t.created,
    f.priority.getD t.priority⟩

/-- views.py lines 88-91: `TaskUpdate` — login required; the object is fetched
by primary key only (no ownership check); on a valid form the four declared
fields are saved in place and the view redirects to `success_url`. -/
def taskUpdate (auth : Option Nat) (pk : Nat) (f : TaskForm) (s : Store) :
    ViewResult Unit × Store :=
  match auth with
  | none => (.redirect (loginRedirect (.update pk)), s)
  | some _ =>
    match s.tasks.find? (fun t => t.id == pk) with
    | none => (.notFound, s)
    | some t =>
      if formValid f then
        (.redirect success_url,
          ⟨s.tasks.map (fun x => if x.id == pk then applyForm f t else x),
            s.nextId, s.clock⟩)
      else (.invalidForm, s)

/-- views.py lines 93-95: `TaskDelete` — login required; the object is fetched
by primary key only (no ownership check), removed, and the view redirects to
`success_url`. -/
def taskDelete (auth : Option Nat) (pk : Nat) (s : Store) :
    ViewResult Unit × Store :=
  match auth with
  | none => (.redirect (loginRedirect (.delete pk)), s)
  | some _ =>
    match s.tasks.find? (fun t => t.id == pk) with
    | none => (.notFound, s)
    | some _ =>
      (.redirect success_url,
        ⟨s.tasks.filter (fun t => t.id != pk), s.nextId, s.clock⟩)

/-- Outcome of a GET of the registration view. -/
inductive RegisterGetResult where
  | redirect (url : String)
  | renderForm
deriving DecidableEq, Repr

/-- views.py lines 59-62: `UserRegister.get` — an authenticated requester is
redirected to the task list at once; the registration form is neither bound
nor validated and the `User` table (`users`, the list of registered
identities) is untouched.  Only an unauthenticated requester gets the form. -/
def registerGet (auth : Option Nat) (users : List Nat) :
    RegisterGetResult × List Nat :=
  match auth with
  | some _ => (.redirect (Route.path .list), users)
  | none => (.renderForm, users)

/-- A sample row owned by user 1, used by concrete witnesses. -/
def sampleTask : Task := ⟨1, some 1, some "Task 1", some "D", "Pending", 0, "Medium"⟩

/-- A sample store holding only `sampleTask`. -/
def sampleStore : Store := ⟨[sampleTask], 2, 1⟩

/-- A sample valid form submission carrying a smuggled owner value. -/
def sampleForm : TaskForm :=
  ⟨some "Updated Task", some "Updated Task Description", some "Completed",
    some "High", some 9⟩

/-- An empty store. -/
def emptyStore : Store := ⟨[], 1, 0⟩

/-- The row produced by posting `sampleForm` to the create view over
`emptyStore` as user 1. -/
def createdTask : Task :=
  ⟨1, some 1, some "Updated Task", some "Updated Task Description",
    "Completed", 0, "High"⟩

/-- A row with a null owner, used by concrete witnesses. -/
def orphanTask : Task := ⟨2, none, some "Orphan", none, "Pending", 1, "Low"⟩

/-- Helper: a valid form has a present, non-empty title, a status among
`STATUS_CHOICES` and a priority among `PRIORITY_CHOICES`. -/
theorem formValid_fields (f : TaskForm) (h : formValid f = true) :
    (∃ v, f.title = some v ∧ v ≠ "")
      ∧ (∃ v, f.status = some v ∧ v ∈ STATUS_CHOICES)
      ∧ (∃ v, f.priority = some v ∧ v ∈ PRIORITY_CHOICES) := by
  simp only [formValid, Bool.and_eq_true] at h
  obtain ⟨⟨h1, h2⟩, h3⟩ := h
  refine ⟨?_, ?_, ?_⟩
  · cases ht : f.title with
    | none => rw [ht] at h1; simp [requiredFilled] at h1
    | some v => rw [ht] at h1; exact ⟨v, rfl, by simpa [requiredFilled] using h1⟩
  · cases hs : f.status with
    | none => rw [hs] at h2; simp [inChoices] at h2
    | some v => rw [hs] at h2; exact ⟨v, rfl, by simpa [inChoices] using h2⟩
  · cases hp : f.priority with
    | none => rw [hp] at h3; simp [inChoices] at h3
    | some v => rw [hp] at h3; exact ⟨v, rfl, by simpa [inChoices] using h3⟩

/-- C1: for an authenticated identity, the list view returns exactly the
tasks whose owner is that identity — a task is in the answer iff it is in the
store and owned by the identity — and the answer is a sublist of the store's
creation-ordered table, hence in creation order (when the table is ordered by
`created`, so is the answer). -/
theorem taskList_exactly_owned (u : Nat) (s : Store)
    (hord : s.tasks.Pairwise (fun a b => a.created ≤ b.created)) :
    ∃ l, taskList (some u) s = ViewResult.ok l
      ∧ (∀ t : Task, t ∈ l ↔ t ∈ s.tasks ∧ t.user = some u)
      ∧ List.Sublist l s.tasks
      ∧ l.Pairwise (fun a b => a.created ≤ b.created) := by
  refine ⟨s.tasks.filter (fun t => t.user == some u), rfl, ?_, ?_, ?_⟩
  · intro t
    simp [List.mem_filter]
  · exact List.filter_sublist s.tasks
  · exact hord.sublist (List.filter_sublist s.tasks)

/-- C1 witness: the list view over the sample store for identity 1. -/
theorem taskList_exactly_owned_witness :
    sampleStore.tasks.Pairwise (fun a b => a.created ≤ b.created)
      ∧ ∃ l, taskList (some 1) sampleStore = ViewResult.ok l
          ∧ (∀ t : Task, t ∈ l ↔ t ∈ sampleStore.tasks ∧ t.user = some 1)
          ∧ List.Sublist l sampleStore.tasks
          ∧ l.Pairwise (fun a b => a.created ≤ b.created) :=
  ⟨by decide, taskList_exactly_owned 1 sampleStore (by decide)⟩

/-- C2: the detail, update and delete views perform no ownership check beyond
existence: for any authenticated identity `v` and any task present in the
store under primary key `pk`, the detail view returns that task, and (given a
valid form) the update and delete views succeed with a redirect to the task
list — nothing requires `v` to be the task's owner. -/
theorem byId_no_ownership_check (v pk : Nat) (s : Store) (t : Task) (f : TaskForm)
    (hfind : s.tasks.find? (fun x => x.id == pk) = some t)
    (hform : formValid f = true) :
    taskDetail (some v) pk s = ViewResult.ok t
      ∧ (taskUpdate (some v) pk f s).1 = ViewResult.redirect success_url
      ∧ (taskDelete (some v) pk s).1 = ViewResult.redirect success_url := by
  refine ⟨?_, ?_, ?_⟩ <;> simp [taskDetail, taskUpdate, taskDelete, hfind, hform]

/-- C2 witness: identity 2, who does not own `sampleTask` (owned by user 1),
still gets the detail page and succeeds at update and delete. -/
theorem byId_no_ownership_check_witness :
    sampleStore.tasks.find? (fun x => x.id == 1) = some sampleTask
      ∧ formValid sampleForm = true
      ∧ sampleTask.user = some 1
      ∧ taskDetail (some 2) 1 sampleStore = ViewResult.ok sampleTask
      ∧ (taskUpdate (some 2) 1 sampleForm sampleStore).1 = ViewResult.redirect success_url
      ∧ (taskDelete (some 2) 1 sampleStore).1 = ViewResult.redirect success_url := by
  have h := byId_no_ownership_check 2 1 sampleStore sampleTask sampleForm
    (by decide) (by decide)
  exact ⟨by decide, by decide, rfl, h.1, h.2.1, h.2.2⟩

/-- C3 counterexample: the claim "get, update, delete succeed only when the
identity is the task's owner" is false: identity 2 is not the owner of
`sampleTask` (owned by user 1), yet the detail view on its id succeeds. -/
theorem detail_cross_user_counterexample :
    sampleTask.user = some 1 ∧ (2 : Nat) ≠ 1
      ∧ taskDetail (some 2) 1 sampleStore = ViewResult.ok sampleTask := by
  decide

/-- C3 (amended): ownership scoping holds for the list view only — every task
the list view returns to an identity is owned by that identity — while the
detail, update and delete views succeed for any authenticated identity on any
existing task id, with no ownership check. -/
theorem ownership_scoping_list_only (u pk : Nat) (s : Store) (t : Task) (f : TaskForm)
    (hfind : s.tasks.find? (fun x => x.id == pk) = some t)
    (hform : formValid f = true) :
    (∀ l, taskList (some u) s = ViewResult.ok l → ∀ x ∈ l, x.user = some u)
      ∧ taskDetail (some u) pk s = ViewResult.ok t
      ∧ (taskUpdate (some u) pk f s).1 = ViewResult.redirect success_url
      ∧ (taskDelete (some u) pk s).1 = ViewResult.redirect success_url := by
  refine ⟨?_, ?_, ?_, ?_⟩
  · intro l hl x hx
    simp only [taskList, ViewResult.ok.injEq] at hl
    subst hl
    have := (List.mem_filter.mp hx).2
    simpa using this
  all_goals simp [taskDetail, taskUpdate, taskDelete, hfind, hform]

/-- C3 amended-claim witness: identity 2 on the sample store. -/
theorem ownership_scoping_list_only_witness :
    sampleStore.tasks.find? (fun x => x.id == 1) = some sampleTask
      ∧ formValid sampleForm = true
      ∧ ((∀ l, taskList (some 2) sampleStore = ViewResult.ok l → ∀ x ∈ l, x.user = some 2)
          ∧ taskDetail (some 2) 1 sampleStore = ViewResult.ok sampleTask
          ∧ (taskUpdate (some 2) 1 sampleForm sampleStore).1 = ViewResult.redirect success_url
          ∧ (taskDelete (some 2) 1 sampleStore).1 = ViewResult.redirect success_url) :=
  ⟨by decide, by decide,
    ownership_scoping_list_only 2 1 sampleStore sampleTask sampleForm (by decide) (by decide)⟩

/-- C4: a task stored by the create view is owned by the creating identity:
the new row's `user` field is `some u` for the authenticated identity `u`,
and the whole outcome of the view is independent of whatever owner value the
client put in the request. -/
theorem create_owner_is_identity (u : Nat) (o : Option Nat) (f : TaskForm) (s : Store)
    (hform : formValid f = true) :
    (∃ t : Task, (taskCreate (some u) f s).2.tasks = s.tasks ++ [t] ∧ t.user = some u)
      ∧ taskCreate (some u) f s
        = taskCreate (some u) ⟨f.title, f.description, f.status, f.priority, o⟩ s := by
  constructor
  · refine ⟨newTask s.nextId (some u) f.title f.description f.status f.priority s.clock, ?_, rfl⟩
    simp [taskCreate, hform, taskObjectsCreate]
  · rfl

/-- C4 witness: user 1 posts `sampleForm`, whose `clientOwner` field smuggles
owner 9; the stored row is owned by user 1, and replacing the smuggled owner
by none changes nothing. -/
theorem create_owner_is_identity_witness :
    formValid sampleForm = true
      ∧ (∃ t : Task, (taskCreate (some 1) sampleForm emptyStore).2.tasks
            = emptyStore.tasks ++ [t] ∧ t.user = some 1)
      ∧ taskCreate (some 1) sampleForm emptyStore
        = taskCreate (some 1)
            ⟨sampleForm.title, sampleForm.description, sampleForm.status,
              sampleForm.priority, none⟩ emptyStore :=
  ⟨by decide, create_owner_is_identity 1 none sampleForm emptyStore (by decide)⟩

/-- C5: a task created with only title and description supplied gets
`priority = 'Medium'` and `status = 'Incomplete'`, a literal that is not a
member of the declared `STATUS_CHOICES` enumeration {Pending, Completed}. -/
theorem default_status_incomplete (user : Option Nat)
    (title description : Option String) (s : Store) :
    (taskObjectsCreate user title description none none s).1.status = "Incomplete"
      ∧ (taskObjectsCreate user title description none none s).1.priority = "Medium"
      ∧ "Incomplete" ∉ STATUS_CHOICES := by
  refine ⟨rfl, rfl, by decide⟩

/-- C6: a request without a valid session to any protected route (list,
detail, create, update, delete) is answered with a redirect to
`/login/?next=<the exact originally requested path>`, and the store is
unchanged (the mutating handlers return the store as received; list and
detail never write). -/
theorem unauthenticated_redirects (s : Store) (pk : Nat) (f : TaskForm) :
    taskList none s = ViewResult.redirect ("/login/?next=" ++ Route.path .list)
      ∧ taskDetail none pk s
        = ViewResult.redirect ("/login/?next=" ++ Route.path (.detail pk))
      ∧ taskCreate none f s
        = (ViewResult.redirect ("/login/?next=" ++ Route.path .create), s)
      ∧ taskUpdate none pk f s
        = (ViewResult.redirect ("/login/?next=" ++ Route.path (.update pk)), s)
      ∧ taskDelete none pk s
        = (ViewResult.redirect ("/login/?next=" ++ Route.path (.delete pk)), s) :=
  ⟨rfl, rfl, rfl, rfl, rfl⟩

/-- C8: a GET of the registration view by a requester who already holds a
valid session redirects straight to the task list; the form is not processed
and the registered-user table comes back unchanged, so no `User` is created. -/
theorem register_get_short_circuits (u : Nat) (users : List Nat) :
    registerGet (some u) users = (RegisterGetResult.redirect (Route.path .list), users) :=
  rfl

/-- C7: on an existing task id with a valid form, the update view rewrites
the table by replacing the row at `pk` with `applyForm f t`: the four
editable fields take the submitted values, while `id`, `user` (the owner) and
`created` are exactly those of the old row; every other row, and the store's
id counter, are untouched. -/
theorem update_frame (u pk : Nat) (f : TaskForm) (s : Store) (t : Task)
    (hfind : s.tasks.find? (fun x => x.id == pk) = some t)
    (hform : formValid f = true) :
    (taskUpdate (some u) pk f s).2.tasks
        = s.tasks.map (fun x => if x.id == pk then applyForm f t else x)
      ∧ (taskUpdate (some u) pk f s).2.nextId = s.nextId
      ∧ (applyForm f t).id = t.id
      ∧ (applyForm f t).user = t.user
      ∧ (applyForm f t).created = t.created
      ∧ (applyForm f t).title = f.title
      ∧ (applyForm f t).description = f.description
      ∧ some (applyForm f t).status = f.status
      ∧ some (applyForm f t).priority = f.priority
      ∧ (∀ x ∈ s.tasks, x.id ≠ pk → x ∈ (taskUpdate (some u) pk f s).2.tasks) := by
  obtain ⟨-, ⟨st, hst, -⟩, ⟨p, hp, -⟩⟩ := formValid_fields f hform
  refine ⟨by simp [taskUpdate, hfind, hform], by simp [taskUpdate, hfind, hform],
    rfl, rfl, rfl, rfl, rfl, by simp [applyForm, hst], by simp [applyForm, hp], ?_⟩
  intro x hx hne
  simp only [taskUpdate, hfind, hform, if_true]
  refine List.mem_map.mpr ⟨x, hx, ?_⟩
  simp [hne]

/-- C7 witness: user 1 updates `sampleTask` (id 1) with `sampleForm`. -/
theorem update_frame_witness :
    sampleStore.tasks.find? (fun x => x.id == 1) = some sampleTask
      ∧ formValid sampleForm = true
      ∧ (applyForm sampleForm sampleTask).id = sampleTask.id
      ∧ (applyForm sampleForm sampleTask).user = sampleTask.user
      ∧ (applyForm sampleForm sampleTask).created = sampleTask.created
      ∧ (taskUpdate (some 1) 1 sampleForm sampleStore).2.tasks
          = sampleStore.tasks.map
              (fun x => if x.id == 1 then applyForm sampleForm sampleTask else x) := by
  have h := update_frame 1 1 sampleForm sampleStore sampleTask (by decide) (by decide)
  exact ⟨by decide, by decide, h.2.2.1, h.2.2.2.1, h.2.2.2.2.1, h.1⟩

/-- C9: every task that the create or update handler adds to the store (i.e.
any task of the post-state that was not already in the pre-state) has a
status among the declared `STATUS_CHOICES` and a priority among the declared
`PRIORITY_CHOICES`; in particular the out-of-enum default `'Incomplete'` can
never be set or restored through these handlers, whose forms validate against
the declared choices. -/
theorem handlers_preserve_choices (u pk : Nat) (f : TaskForm) (s : Store) (t : Task)
    (hmem : t ∈ (taskCreate (some u) f s).2.tasks
      ∨ t ∈ (taskUpdate (some u) pk f s).2.tasks)
    (hnew : t ∉ s.tasks) :
    t.status ∈ STATUS_CHOICES ∧ t.priority ∈ PRIORITY_CHOICES
      ∧ t.status ≠ "Incomplete" := by
  have key : t.status ∈ STATUS_CHOICES ∧ t.priority ∈ PRIORITY_CHOICES := by
    rcases hmem with hc | hu
    · cases hv : formValid f with
      | false =>
        simp only [taskCreate, hv, if_false] at hc
        exact absurd hc hnew
      | true =>
        obtain ⟨-, ⟨st, hst, hstm⟩, ⟨p, hp, hpm⟩⟩ := formValid_fields f hv
        simp only [taskCreate, hv, if_true, taskObjectsCreate, List.mem_append,
          List.mem_singleton] at hc
        rcases hc with hc | hc
        · exact absurd hc hnew
        · subst hc
          constructor
          · simpa [newTask, hst] using hstm
          · simpa [newTask, hp] using hpm
    · cases hfind : s.tasks.find? (fun x => x.id == pk) with
      | none =>
        simp only [taskUpdate, hfind] at hu
        exact absurd hu hnew
      | some t0 =>
        cases hv : formValid f with
        | false =>
          simp only [taskUpdate, hfind, hv, if_false] at hu
          exact absurd hu hnew
        | true =>
          obtain ⟨-, ⟨st, hst, hstm⟩, ⟨p, hp, hpm⟩⟩ := formValid_fields f hv
          simp only [taskUpdate, hfind, hv, if_true, List.mem_map] at hu
          obtain ⟨x, hx, hxt⟩ := hu
          by_cases hid : (x.id == pk) = true
          · rw [if_pos hid] at hxt
            subst hxt
            constructor
            · simpa [applyForm, hst] using hstm
            · simpa [applyForm, hp] using hpm
          · rw [if_neg hid] at hxt
            subst hxt
            exact absurd hx hnew
  refine ⟨key.1, key.2, ?_⟩
  intro heq
  have hni : "Incomplete" ∉ STATUS_CHOICES := by decide
  exact hni (heq ▸ key.1)

/-- C9 witness: the row created by posting `sampleForm` over the empty store
is new and carries an in-enum status and priority. -/
theorem handlers_preserve_choices_witness :
    (createdTask ∈ (taskCreate (some 1) sampleForm emptyStore).2.tasks
        ∨ createdTask ∈ (taskUpdate (some 1) 0 sampleForm emptyStore).2.tasks)
      ∧ createdTask ∉ emptyStore.tasks
      ∧ (createdTask.status ∈ STATUS_CHOICES ∧ createdTask.priority ∈ PRIORITY_CHOICES
          ∧ createdTask.status ≠ "Incomplete") :=
  ⟨Or.inl (by decide), by decide,
    handlers_preserve_choices 1 0 sampleForm emptyStore createdTask
      (Or.inl (by decide)) (by decide)⟩

/-- C10: the store admits rows with a null owner — here a store holding the
ownerless row `t0` — and the list view never returns such a row to any
identity: its ownership filter keeps exactly the rows whose owner equals the
requesting identity. -/
theorem list_excludes_ownerless (u : Nat) (s : Store) (t0 : Task)
    (h0 : t0.user = none) :
    ∃ l, taskList (some u) ⟨s.tasks ++ [t0], s.nextId, s.clock⟩ = ViewResult.ok l
      ∧ t0 ∉ l
      ∧ ∀ t ∈ l, t.user = some u := by
  refine ⟨_, rfl, ?_, ?_⟩
  · intro hmem
    have h := (List.mem_filter.mp hmem).2
    rw [h0] at h
    simp at h
  · intro t hmem
    have h := (List.mem_filter.mp hmem).2
    simpa using h

/-- C10 witness: `orphanTask` has a null owner; added to the sample store, it
is absent from user 1's list, whose every member is owned by user 1. -/
theorem list_excludes_ownerless_witness :
    orphanTask.user = none
      ∧ ∃ l, taskList (some 1)
            ⟨sampleStore.tasks ++ [orphanTask], sampleStore.nextId, sampleStore.clock⟩
          = ViewResult.ok l
        ∧ orphanTask ∉ l
        ∧ ∀ t ∈ l, t.user = some 1 :=
  ⟨rfl, list_excludes_ownerless 1 sampleStore orphanTask rfl⟩

end Todoapp
